import Mathlib

/-!
Formal model of the Dust consolidation system.

The definitions below are a shallow embedding of
- the quote-aggregation engine in `backend/src/services/aggregators.js`
  (`getBestQuote` and its fee/netOutput arithmetic), and
- the `DustConsolidator` and `GasPaymaster` contracts in
  `contracts/src-ccip/GasPaymaster.sol` (job state machine, settlement,
  refund, cross-chain receipt, gas-recovery ledger).

Modelling conventions:
- `uint256` values are modelled as `Nat`.  Solidity 0.8 uses checked
  arithmetic, so an overflowing operation reverts the transaction; the
  theorems below therefore describe exactly the non-reverting executions,
  on which the `Nat` values coincide with the EVM values.
- JavaScript `BigInt` values in the aggregator are likewise `Nat` (all
  quantities involved are non-negative); `BigInt` division truncates
  toward zero, which on non-negative operands is `Nat` division.
- A reverting contract call is an `Except.error`: it performs no state
  change, matching EVM rollback semantics.  Token transfers performed by
  `SafeERC20.safeTransfer` are recorded in an append-only `transfers`
  log, and emitted events in an `events` log (most recent first).
-/

namespace Dust

/-! ## Quote aggregation (`backend/src/services/aggregators.js`) -/

namespace Aggregators

/-- The four quote sources queried by `getBestQuote`, in the fixed order
of the `Promise.all` array in the source (`0x`, `1inch`, `paraswap`,
`lifi`). -/
inductive Source
  | zeroX
  | oneInch
  | paraswap
  | lifi
deriving DecidableEq, Repr

/-- `AGGREGATOR_FEES` converted to basis points.  The source stores the
fees as percent floats (`0x: 0.15`, the rest `0`) and the ranking code
converts with `BigInt(Math.floor(q.fee * 100))`.  In IEEE-754 double
arithmetic `0.15 * 100` evaluates to exactly `15.0` and `0 * 100` to
`0.0`, so the conversion yields exactly these integers. -/
def aggregatorFeeBps : Source → Nat
  | .zeroX => 15
  | .oneInch => 0
  | .paraswap => 0
  | .lifi => 0

/-- The fields of a normalized quote object that the ranking logic in
`getBestQuote` reads: the `aggregator` tag and `buyAmount`.  The `fee`
field of every quote object is that aggregator's constant from
`AGGREGATOR_FEES`, recovered here through `aggregatorFeeBps`. -/
structure Quote where
  aggregator : Source
  buyAmount : Nat
deriving DecidableEq, Repr

/-- A quote together with its computed `netOutput` field (the result of
the `quotesWithNet` map step). -/
structure RankedQuote where
  quote : Quote
  netOutput : Nat
deriving DecidableEq, Repr

/-- One step of the `quotes.map` building `quotesWithNet`:
`aggregatorFeeAmount = (q.buyAmount * BigInt(Math.floor(q.fee * 100))) / 10000n`
and `netOutput = q.buyAmount - aggregatorFeeAmount`.  All values are
non-negative and the fee is at most 15 bps, so `Nat` subtraction and
truncating division agree with the `BigInt` operations. -/
def withNet (q : Quote) : RankedQuote :=
  let aggregatorFeeAmount := q.buyAmount * aggregatorFeeBps q.aggregator / 10000
  ⟨q, q.buyAmount - aggregatorFeeAmount⟩

/-- The `[quote0x, quote1inch, quoteParaswap, quoteLifi].filter(q => q !== null)`
step: each argument is the result of one source getter, `none` when that
source errored, returned a malformed payload, or was unsupported. -/
def collectQuotes (q0 q1 qp ql : Option Quote) : List Quote :=
  [q0, q1, qp, ql].filterMap id

/-- `quotesWithNet`: every collected quote extended with `netOutput`. -/
def quotesWithNet (q0 q1 qp ql : Option Quote) : List RankedQuote :=
  (collectQuotes q0 q1 qp ql).map withNet

/-- The comparator handed to `quotesWithNet.sort`: `a` precedes `b` when
`a.netOutput > b.netOutput`, ties compare equal.  ECMAScript
`Array.prototype.sort` is a stable sort, so the call is modelled with
the stable `List.mergeSort` and the Boolean "may stay before" relation
of that comparator. -/
def netDesc (a b : RankedQuote) : Bool := decide (b.netOutput ≤ a.netOutput)

/-- The sorted candidate list produced inside `getBestQuote`. -/
def rankQuotes (q0 q1 qp ql : Option Quote) : List RankedQuote :=
  (quotesWithNet q0 q1 qp ql).mergeSort netDesc

/-- The value returned by a successful `getBestQuote` call: the spread
`{...best, allQuotes, ourServiceFee}`.  Only the fields the claims are
about are modelled: `best` (the top candidate, including its
`netOutput`) and `allQuotes` (the full ranked list).  The
`ourServiceFee` float and the string projection of `allQuotes` carry no
additional information. -/
structure BestQuoteResult where
  best : RankedQuote
  allQuotes : List RankedQuote
deriving DecidableEq, Repr

/-- `getBestQuote`, given the outcome of the four parallel source
requests.  Returns `none` (JS `null`) when every source failed. -/
def getBestQuote (q0 q1 qp ql : Option Quote) : Option BestQuoteResult :=
  if (collectQuotes q0 q1 qp ql).isEmpty then none
  else
    match rankQuotes q0 q1 qp ql with
    | [] => none
    | best :: rest => some ⟨best, best :: rest⟩

end Aggregators

/-! ## The `DustConsolidator` contract (`contracts/src-ccip/GasPaymaster.sol`) -/

namespace Consolidator

/-- An EVM address, with `0` playing the role of `address(0)`. -/
abbrev Addr := Nat

/-- A `bytes32` job identifier. -/
abbrev JobId := Nat

/-- `enum JobStatus`, in declaration order (so the Solidity zero value
is `Created`). -/
inductive JobStatus
  | Created
  | Receiving
  | Swapping
  | Settling
  | Complete
  | Failed
  | Refunded
deriving DecidableEq, Repr

/-- `struct ConsolidationJob`. -/
structure ConsolidationJob where
  user : Addr
  targetAsset : Addr
  expectedAmount : Nat
  receivedAmount : Nat
  swappedAmount : Nat
  netAmount : Nat
  gasCostUSD : Nat
  serviceFee : Nat
  status : JobStatus
  sourceChains : List Nat
  createdAt : Nat
  completedAt : Nat
deriving DecidableEq, Repr

/-- The default value of the `jobs` mapping: the all-zero struct (its
enum field decodes to `Created`).  A job exists iff its `user` field is
nonzero, which is exactly the `validJob` test in the source. -/
def emptyJob : ConsolidationJob :=
  { user := 0, targetAsset := 0, expectedAmount := 0, receivedAmount := 0,
    swappedAmount := 0, netAmount := 0, gasCostUSD := 0, serviceFee := 0,
    status := .Created, sourceChains := [], createdAt := 0, completedAt := 0 }

/-- `FEE_DENOMINATOR = 10000`. -/
def FEE_DENOMINATOR : Nat := 10000

/-- `MAX_SERVICE_FEE = 500` (5 percent cap, enforced by `setServiceFee`). -/
def MAX_SERVICE_FEE : Nat := 500

/-- `MIN_CONSOLIDATION_USD = 1e6` (1 dollar in 6-decimal units). -/
def MIN_CONSOLIDATION_USD : Nat := 1000000

/-- One `SafeERC20.safeTransfer(token, recipient, amount)` performed by
the contract. -/
structure Transfer where
  token : Addr
  recipient : Addr
  amount : Nat
deriving DecidableEq, Repr

/-- The events the modelled functions emit. -/
inductive Event
  | JobCreated (jobId : JobId) (user targetAsset : Addr) (expectedAmount : Nat)
  | AssetReceived (jobId : JobId) (sourceChain : Nat) (token : Addr) (amount : Nat)
  | SwapExecuted (jobId : JobId) (fromToken toToken : Addr) (amountIn amountOut : Nat)
  | JobCompleted (jobId : JobId) (user : Addr) (netAmount gasCost serviceFee : Nat)
  | JobFailed (jobId : JobId) (reason : String)
  | JobRefunded (jobId : JobId) (user : Addr) (amount : Nat)
deriving DecidableEq, Repr

/-- The custom errors a modelled call can revert with.  `EnforcedPause`
is the revert of the OpenZeppelin `whenNotPaused` modifier. -/
inductive Err
  | InvalidAmount
  | InvalidTargetAsset
  | InvalidJobStatus
  | JobNotFound
  | UnauthorizedSender
  | UnsupportedSourceChain
  | SwapFailed
  | SlippageExceeded
  | ZeroAddress
  | EnforcedPause
deriving DecidableEq, Repr

/-- The contract state touched by the modelled entry points, plus the
`transfers` and `events` logs (most recent entry first in `events`,
append-at-end in `transfers`). -/
structure ConsState where
  owner : Addr
  backend : Addr
  usdc : Addr
  weth : Addr
  paused : Bool
  serviceFeePercent : Nat
  totalFeesCollected : Nat
  totalConsolidated : Nat
  jobs : JobId → ConsolidationJob
  userJobs : Addr → List JobId
  supportedSourceChains : Nat → Bool
  trustedSenders : Nat → Addr
  transfers : List Transfer
  events : List Event

/-- Write one slot of the `jobs` mapping. -/
def setJob (s : ConsState) (jobId : JobId) (job : ConsolidationJob) : ConsState :=
  { s with jobs := fun j => if j = jobId then job else s.jobs j }

/-- Emit an event. -/
def logEvent (s : ConsState) (e : Event) : ConsState :=
  { s with events := e :: s.events }

/-- Record a `safeTransfer`. -/
def pushTransfer (s : ConsState) (token recipient : Addr) (amount : Nat) : ConsState :=
  { s with transfers := s.transfers ++ [⟨token, recipient, amount⟩] }

/-- The `onlyBackend` modifier test:
`msg.sender != backend && msg.sender != owner()` reverts. -/
def notBackend (s : ConsState) (sender : Addr) : Prop :=
  sender ≠ s.backend ∧ sender ≠ s.owner

instance (s : ConsState) (sender : Addr) : Decidable (notBackend s sender) :=
  inferInstanceAs (Decidable (And _ _))

/-- Models `keccak256(abi.encodePacked(user, block.timestamp,
userJobs[user].length))`.  The hash is treated as collision-free, i.e.
as an injective function of the three encoded words, realised by
iterated Cantor pairing. -/
def jobIdOf (user : Addr) (timestamp count : Nat) : JobId :=
  Nat.pair user (Nat.pair timestamp count)

/-- `createJob(user, targetAsset, expectedAmount, sourceChains)`,
called by `sender` at time `now`.  Check order follows the source:
`onlyBackend`, `whenNotPaused`, target-asset whitelist, zero user, zero
amount; then the job struct is stored and the id pushed to
`userJobs[user]`. -/
def createJob (s : ConsState) (sender user targetAsset : Addr)
    (expectedAmount : Nat) (sourceChains : List Nat) (now : Nat) :
    Except Err (ConsState × JobId) :=
  if notBackend s sender then .error .UnauthorizedSender
  else if s.paused then .error .EnforcedPause
  else if targetAsset ≠ s.usdc ∧ targetAsset ≠ s.weth then .error .InvalidTargetAsset
  else if user = 0 then .error .ZeroAddress
  else if expectedAmount = 0 then .error .InvalidAmount
  else
    let jobId := jobIdOf user now (s.userJobs user).length
    let s1 := setJob s jobId
      { user := user, targetAsset := targetAsset, expectedAmount := expectedAmount,
        receivedAmount := 0, swappedAmount := 0, netAmount := 0, gasCostUSD := 0,
        serviceFee := 0, status := .Created, sourceChains := sourceChains,
        createdAt := now, completedAt := 0 }
    let s2 := { s1 with
      userJobs := fun u => if u = user then s1.userJobs u ++ [jobId] else s1.userJobs u }
    .ok (logEvent s2 (.JobCreated jobId user targetAsset expectedAmount), jobId)

/-- `_ccipReceive`: a delivery from `sourceChain` whose decoded sender
is `msgSender` and whose decoded payload is `(jobId, token, amount)`.
Check order follows the source: `whenNotPaused`, supported chain,
trusted sender, job existence; then `status` advances from `Created` to
`Receiving` (and only then), and `receivedAmount += amount`. -/
def ccipReceive (s : ConsState) (sourceChain : Nat) (msgSender : Addr)
    (jobId : JobId) (token : Addr) (amount : Nat) : Except Err ConsState :=
  if s.paused then .error .EnforcedPause
  else if ¬ s.supportedSourceChains sourceChain then .error .UnsupportedSourceChain
  else if msgSender ≠ s.trustedSenders sourceChain then .error .UnauthorizedSender
  else
    let job := s.jobs jobId
    if job.user = 0 then .error .JobNotFound
    else
      let job := { job with
        status := if job.status = .Created then .Receiving else job.status,
        receivedAmount := job.receivedAmount + amount }
      .ok (logEvent (setJob s jobId job) (.AssetReceived jobId sourceChain token amount))

/-- `executeSwap(jobId, fromToken, amount, minAmountOut, swapData)`.
The external environment of the call is abstracted by two oracle
arguments: `routerCallSuccess` is the Boolean result of
`swapRouter.call(swapData)`, and `amountOut` is the measured
`balanceAfter - balanceBefore` of the target asset.  A revert
(`SwapFailed`, `SlippageExceeded`) rolls back the transient
`job.status = Swapping` write and the router allowance, so the error
branches return no state, exactly like the EVM. -/
def executeSwap (s : ConsState) (sender : Addr) (jobId : JobId)
    (fromToken : Addr) (amount minAmountOut : Nat)
    (routerCallSuccess : Bool) (amountOut : Nat) : Except Err ConsState :=
  if notBackend s sender then .error .UnauthorizedSender
  else if (s.jobs jobId).user = 0 then .error .JobNotFound
  else
    let job := s.jobs jobId
    if job.status ≠ .Receiving ∧ job.status ≠ .Swapping then .error .InvalidJobStatus
    else if ¬ routerCallSuccess then .error .SwapFailed
    else if amountOut < minAmountOut then .error .SlippageExceeded
    else
      let job := { job with status := .Swapping,
                            swappedAmount := job.swappedAmount + amountOut }
      .ok (logEvent (setJob s jobId job)
            (.SwapExecuted jobId fromToken job.targetAsset amount amountOut))

/-- The amount a job settles or refunds:
`job.swappedAmount > 0 ? job.swappedAmount : job.receivedAmount`
(named `totalAmount` in `settleJob` and `refundAmount` in `refundJob`,
with the identical expression). -/
def totalAmountOf (job : ConsolidationJob) : Nat :=
  if job.swappedAmount > 0 then job.swappedAmount else job.receivedAmount

/-- `_failJob(jobId, reason)`: set status to `Failed` and emit
`JobFailed`.  No transfer is performed on this path. -/
def failJob (s : ConsState) (jobId : JobId) (reason : String) : ConsState :=
  logEvent (setJob s jobId { s.jobs jobId with status := .Failed }) (.JobFailed jobId reason)

/-- `settleJob(jobId, gasCostUSD)` called by `sender` at time `now`.
The transient `job.status = Settling` write in the source is overwritten
on every path before the call returns (by `_failJob` or by the
`Complete` assignment), so it is not modelled as an intermediate state.
On the success path the job fields are set, the running totals updated,
`netAmount` transferred to the user and, when nonzero, `serviceFee` to
the owner. -/
def settleJob (s : ConsState) (sender : Addr) (jobId : JobId)
    (gasCostUSD : Nat) (now : Nat) : Except Err ConsState :=
  if notBackend s sender then .error .UnauthorizedSender
  else if (s.jobs jobId).user = 0 then .error .JobNotFound
  else
    let job := s.jobs jobId
    if job.status ≠ .Swapping ∧ job.status ≠ .Receiving then .error .InvalidJobStatus
    else
      let totalAmount := totalAmountOf job
      if totalAmount < MIN_CONSOLIDATION_USD then
        .ok (failJob s jobId "Amount below minimum")
      else
        let serviceFee := totalAmount * s.serviceFeePercent / FEE_DENOMINATOR
        let totalFees := gasCostUSD + serviceFee
        if totalAmount ≤ totalFees then
          .ok (failJob s jobId "Insufficient amount for fees")
        else
          let netAmount := totalAmount - totalFees
          let job1 := { job with netAmount := netAmount, gasCostUSD := gasCostUSD,
                                 serviceFee := serviceFee, status := .Complete,
                                 completedAt := now }
          let s1 := setJob s jobId job1
          let s2 := { s1 with totalFeesCollected := s1.totalFeesCollected + serviceFee,
                              totalConsolidated := s1.totalConsolidated + netAmount }
          let s3 := pushTransfer s2 job.targetAsset job.user netAmount
          let s4 := if serviceFee > 0 then pushTransfer s3 job.targetAsset s.owner serviceFee
                    else s3
          .ok (logEvent s4 (.JobCompleted jobId job.user netAmount gasCostUSD serviceFee))

/-- `refundJob(jobId)`.  Only a `Failed` job passes the status check;
when the residual amount is nonzero the job becomes `Refunded` and the
full residual is transferred to the user, and when it is zero the call
returns with no state change (no revert). -/
def refundJob (s : ConsState) (sender : Addr) (jobId : JobId) : Except Err ConsState :=
  if notBackend s sender then .error .UnauthorizedSender
  else if (s.jobs jobId).user = 0 then .error .JobNotFound
  else
    let job := s.jobs jobId
    if job.status ≠ .Failed then .error .InvalidJobStatus
    else
      let refundAmount := totalAmountOf job
      if refundAmount > 0 then
        let s1 := setJob s jobId { job with status := .Refunded }
        .ok (logEvent (pushTransfer s1 job.targetAsset job.user refundAmount)
              (.JobRefunded jobId job.user refundAmount))
      else .ok s

/-- One externally observable transaction against the job state
machine, with its environment inputs. -/
inductive Op
  | create (sender user targetAsset : Addr) (expectedAmount : Nat)
      (sourceChains : List Nat) (now : Nat)
  | ccip (sourceChain : Nat) (msgSender : Addr) (jobId : JobId) (token : Addr) (amount : Nat)
  | swap (sender : Addr) (jobId : JobId) (fromToken : Addr) (amount minAmountOut : Nat)
      (routerCallSuccess : Bool) (amountOut : Nat)
  | settle (sender : Addr) (jobId : JobId) (gasCostUSD now : Nat)
  | refund (sender : Addr) (jobId : JobId)

/-- Transaction semantics: a reverting call leaves the state unchanged. -/
def step (s : ConsState) : Op → ConsState
  | .create sender user targetAsset expectedAmount sourceChains now =>
      match createJob s sender user targetAsset expectedAmount sourceChains now with
      | .ok (s', _) => s'
      | .error _ => s
  | .ccip sourceChain msgSender jobId token amount =>
      match ccipReceive s sourceChain msgSender jobId token amount with
      | .ok s' => s'
      | .error _ => s
  | .swap sender jobId fromToken amount minAmountOut routerCallSuccess amountOut =>
      match executeSwap s sender jobId fromToken amount minAmountOut routerCallSuccess amountOut with
      | .ok s' => s'
      | .error _ => s
  | .settle sender jobId gasCostUSD now =>
      match settleJob s sender jobId gasCostUSD now with
      | .ok s' => s'
      | .error _ => s
  | .refund sender jobId =>
      match refundJob s sender jobId with
      | .ok s' => s'
      | .error _ => s

/-- Position of a status along the pipeline
`Created → Receiving → Swapping → Settling → {Complete | Failed} → Refunded`
(the enum declaration order).  "Never regresses" means this rank never
decreases. -/
def statusRank : JobStatus → Nat
  | .Created => 0
  | .Receiving => 1
  | .Swapping => 2
  | .Settling => 3
  | .Complete => 4
  | .Failed => 5
  | .Refunded => 6

/-- The reachable-state invariant needed for forward-only progress:
a stored job id of the form `jobIdOf u t n` always has `n` strictly
below the length of `userJobs[u]` (so `createJob` always writes a fresh
slot), and a slot with zero `user` is still in its default `Created`
status.  Both hold in the freshly deployed contract and are preserved
by every operation. -/
structure Inv (s : ConsState) : Prop where
  fresh : ∀ u t n, (s.jobs (jobIdOf u t n)).user ≠ 0 → n < (s.userJobs u).length
  zeroEmpty : ∀ jobId, (s.jobs jobId).user = 0 → (s.jobs jobId).status = .Created

/-- The state of the contract right after the constructor runs: no jobs,
no logs, default service fee of 100 bps. -/
def initialState (owner backend usdc weth : Addr) : ConsState :=
  { owner := owner, backend := backend, usdc := usdc, weth := weth,
    paused := false, serviceFeePercent := 100, totalFeesCollected := 0,
    totalConsolidated := 0, jobs := fun _ => emptyJob, userJobs := fun _ => [],
    supportedSourceChains := fun _ => false, trustedSenders := fun _ => 0,
    transfers := [], events := [] }

/-- A concrete state used to evaluate the entry points: backend address
7, owner 9, USDC 11, WETH 12, service fee `feePercent` bps, and a single
job with id 1 owned by user 5 targeting USDC, with the given
`receivedAmount`, `swappedAmount` and `status`.  Chain selector 10 is
supported with trusted sender 77. -/
def demoState (received swapped : Nat) (status : JobStatus) (feePercent : Nat) : ConsState :=
  { owner := 9, backend := 7, usdc := 11, weth := 12, paused := false,
    serviceFeePercent := feePercent, totalFeesCollected := 0, totalConsolidated := 0,
    jobs := fun j => if j = 1 then
        { user := 5, targetAsset := 11, expectedAmount := 100000000,
          receivedAmount := received, swappedAmount := swapped, netAmount := 0,
          gasCostUSD := 0, serviceFee := 0, status := status,
          sourceChains := [10], createdAt := 0, completedAt := 0 }
      else emptyJob,
    userJobs := fun u => if u = 5 then [1] else [],
    supportedSourceChains := fun c => c == 10,
    trustedSenders := fun c => if c = 10 then 77 else 0,
    transfers := [], events := [] }

end Consolidator

/-! ## The `GasPaymaster` contract (`contracts/src-ccip/GasPaymaster.sol`) -/

namespace Paymaster

open Consolidator (Addr JobId)

/-- `struct GasRecord`. -/
structure GasRecord where
  user : Addr
  gasSponsored : Nat
  gasPriceWei : Nat
  ethPriceUSD : Nat
  gasCostUSD : Nat
  recovered : Bool
  timestamp : Nat
deriving DecidableEq, Repr

/-- The default value of the `gasRecords` mapping; a record exists iff
its `user` field is nonzero. -/
def emptyRecord : GasRecord :=
  { user := 0, gasSponsored := 0, gasPriceWei := 0, ethPriceUSD := 0,
    gasCostUSD := 0, recovered := false, timestamp := 0 }

/-- The custom errors the modelled paymaster calls can revert with. -/
inductive PmErr
  | UnauthorizedCaller
  | InvalidJobId
  | AlreadyRecovered
deriving DecidableEq, Repr

/-- The paymaster state touched by `markGasRecovered`. -/
structure PmState where
  owner : Addr
  dustConsolidator : Addr
  authorizedSponsors : Addr → Bool
  gasRecords : JobId → GasRecord
  totalGasRecovered : Nat

/-- The `onlyConsolidatorOrAuthorized` modifier test: the call reverts
when the sender is neither the consolidator, nor an authorized sponsor,
nor the owner. -/
def pmUnauthorized (s : PmState) (sender : Addr) : Prop :=
  sender ≠ s.dustConsolidator ∧ ¬ s.authorizedSponsors sender ∧ sender ≠ s.owner

instance (s : PmState) (sender : Addr) : Decidable (pmUnauthorized s sender) :=
  inferInstanceAs (Decidable (And _ _))

/-- `markGasRecovered(jobId)`: reverts `InvalidJobId` on a missing
record and `AlreadyRecovered` on a recovered one; otherwise flips the
flag and adds the record cost to `totalGasRecovered`. -/
def markGasRecovered (s : PmState) (sender : Addr) (jobId : JobId) :
    Except PmErr PmState :=
  if pmUnauthorized s sender then .error .UnauthorizedCaller
  else
    let record := s.gasRecords jobId
    if record.user = 0 then .error .InvalidJobId
    else if record.recovered then .error .AlreadyRecovered
    else
      .ok { s with
        gasRecords := fun j => if j = jobId then { record with recovered := true }
                               else s.gasRecords j,
        totalGasRecovered := s.totalGasRecovered + record.gasCostUSD }

/-- A concrete paymaster state used to evaluate `markGasRecovered`:
consolidator address 3, owner 9, no extra authorized sponsors, a single
unrecovered record for job 1 (user 5, cost 42). -/
def demoPmState : PmState :=
  { owner := 9, dustConsolidator := 3,
    authorizedSponsors := fun _ => false,
    gasRecords := fun j => if j = 1 then
        { user := 5, gasSponsored := 1000, gasPriceWei := 2, ethPriceUSD := 300000000000,
          gasCostUSD := 42, recovered := false, timestamp := 0 }
      else emptyRecord,
    totalGasRecovered := 0 }

end Paymaster

/-! ## Theorems: quote aggregation -/

namespace Aggregators

theorem netDesc_trans (a b c : RankedQuote) (hab : netDesc a b = true)
    (hbc : netDesc b c = true) : netDesc a c = true := by
  simp only [netDesc, decide_eq_true_eq] at hab hbc ⊢
  exact le_trans hbc hab

theorem netDesc_total (a b : RankedQuote) : (netDesc a b || netDesc b a) = true := by
  simp only [netDesc, Bool.or_eq_true, decide_eq_true_eq]
  exact Nat.le_total b.netOutput a.netOutput

/-- A successful `getBestQuote` call returns the sorted candidate list
with its head as the best quote. -/
theorem getBestQuote_eq_of_some (q0 q1 qp ql : Option Quote) (r : BestQuoteResult)
    (h : getBestQuote q0 q1 qp ql = some r) :
    r.allQuotes = rankQuotes q0 q1 qp ql ∧
    ∃ rest, r.allQuotes = r.best :: rest := by
  unfold getBestQuote at h
  split at h
  · cases h
  · split at h
    · cases h
    · rename_i best rest heq
      injection h with h
      subst h
      exact ⟨heq.symm, rest, rfl⟩

theorem rankQuotes_sorted (q0 q1 qp ql : Option Quote) :
    (rankQuotes q0 q1 qp ql).Pairwise (fun a b => netDesc a b = true) :=
  List.sorted_mergeSort netDesc_trans netDesc_total _

/-- Claim C2: for every successful `bestQuote` call, the returned best
candidate has `netOutput` greater than or equal to that of every
candidate in the returned list, the list is sorted by `netOutput`
descending, and candidates with equal `netOutput` keep the fixed
source-priority order of the input (the sort is stable). -/
theorem bestQuote_ranking (q0 q1 qp ql : Option Quote) (r : BestQuoteResult)
    (h : getBestQuote q0 q1 qp ql = some r) :
    (∀ c ∈ r.allQuotes, c.netOutput ≤ r.best.netOutput) ∧
    r.allQuotes.Pairwise (fun a b => b.netOutput ≤ a.netOutput) ∧
    (∀ a b : RankedQuote, a.netOutput = b.netOutput →
      List.Sublist [a, b] (quotesWithNet q0 q1 qp ql) →
      List.Sublist [a, b] r.allQuotes) := by
  obtain ⟨hall, rest, hhead⟩ := getBestQuote_eq_of_some q0 q1 qp ql r h
  have hsorted := rankQuotes_sorted q0 q1 qp ql
  rw [← hall] at hsorted
  have hsorted' : r.allQuotes.Pairwise (fun a b => b.netOutput ≤ a.netOutput) :=
    hsorted.imp (by intro a b hab; simpa [netDesc] using hab)
  refine ⟨?_, hsorted', ?_⟩
  · intro c hc
    rw [hhead] at hsorted' hc
    rcases List.mem_cons.mp hc with hc | hc
    · simp [hc]
    · exact (List.pairwise_cons.mp hsorted').1 c hc
  · intro a b hab hsub
    rw [hall]
    refine List.sublist_mergeSort netDesc_trans netDesc_total ?_ hsub
    simp [netDesc, hab]

/-- Witness for C2 at a concrete call: the 0x source quoting gross 2000
(fee 15 bps, net 1997) and the 1inch source quoting gross 999 (net 999),
with the other two sources failing. -/
theorem bestQuote_ranking_witness :
    (∀ c ∈ [RankedQuote.mk ⟨.zeroX, 2000⟩ 1997, RankedQuote.mk ⟨.oneInch, 999⟩ 999],
        c.netOutput ≤ (RankedQuote.mk ⟨.zeroX, 2000⟩ 1997).netOutput) ∧
    List.Pairwise (fun a b => b.netOutput ≤ a.netOutput)
      [RankedQuote.mk ⟨.zeroX, 2000⟩ 1997, RankedQuote.mk ⟨.oneInch, 999⟩ 999] ∧
    (∀ a b : RankedQuote, a.netOutput = b.netOutput →
      List.Sublist [a, b] (quotesWithNet (some ⟨.zeroX, 2000⟩) (some ⟨.oneInch, 999⟩) none none) →
      List.Sublist [a, b]
        [RankedQuote.mk ⟨.zeroX, 2000⟩ 1997, RankedQuote.mk ⟨.oneInch, 999⟩ 999]) :=
  bestQuote_ranking (some ⟨.zeroX, 2000⟩) (some ⟨.oneInch, 999⟩) none none
    ⟨⟨⟨.zeroX, 2000⟩, 1997⟩, [⟨⟨.zeroX, 2000⟩, 1997⟩, ⟨⟨.oneInch, 999⟩, 999⟩]⟩
    (by
      have hrank : rankQuotes (some ⟨.zeroX, 2000⟩) (some ⟨.oneInch, 999⟩) none none
          = [⟨⟨.zeroX, 2000⟩, 1997⟩, ⟨⟨.oneInch, 999⟩, 999⟩] := by
        unfold rankQuotes
        exact List.mergeSort_of_sorted (by decide)
      simp only [getBestQuote, hrank]
      decide)

/-- Evaluation of `getBestQuote` on the spec scenario input: three of
four sources fail and the 0x source returns gross output 1000 at its 15
bps fee.  The computed net output is `1000 - 1000 * 15 / 10000 = 999`. -/
theorem getBestQuote_scenario_eval :
    getBestQuote (some ⟨.zeroX, 1000⟩) none none none
      = some ⟨⟨⟨.zeroX, 1000⟩, 999⟩, [⟨⟨.zeroX, 1000⟩, 999⟩]⟩ := by
  have hrank : rankQuotes (some ⟨.zeroX, 1000⟩) none none none
      = [⟨⟨.zeroX, 1000⟩, 999⟩] := by
    unfold rankQuotes
    exact List.mergeSort_of_sorted (by decide)
  simp only [getBestQuote, hrank]
  decide

/-- Claim C3, counterexample to the stated scenario value: with three of
four sources failing and the remaining source returning grossOutput 1000
at feeBps 15, the returned candidate carries netOutput
`1000 - 1000 * 15 / 10000 = 999`, not 998 as claimed. -/
theorem bestQuote_scenario_net_999 :
    getBestQuote (some ⟨.zeroX, 1000⟩) none none none
      = some ⟨⟨⟨.zeroX, 1000⟩, 999⟩, [⟨⟨.zeroX, 1000⟩, 999⟩]⟩ ∧
    (999 : Nat) ≠ 998 :=
  ⟨getBestQuote_scenario_eval, by decide⟩

/-- Claim C3 (amended): every candidate of a successful `bestQuote` call
(and in particular the returned best candidate) has
`netOutput = gross - gross * feeBps / 10000` in exact truncating integer
arithmetic; on the one-source scenario input the returned quote is the
surviving source with netOutput 999. -/
theorem bestQuote_netOutput_exact (q0 q1 qp ql : Option Quote) (r : BestQuoteResult)
    (h : getBestQuote q0 q1 qp ql = some r) :
    (∀ c ∈ r.allQuotes,
        c.netOutput = c.quote.buyAmount
          - c.quote.buyAmount * aggregatorFeeBps c.quote.aggregator / 10000) ∧
    r.best.netOutput = r.best.quote.buyAmount
        - r.best.quote.buyAmount * aggregatorFeeBps r.best.quote.aggregator / 10000 := by
  obtain ⟨hall, rest, hhead⟩ := getBestQuote_eq_of_some q0 q1 qp ql r h
  have hmem : ∀ c ∈ r.allQuotes,
      c.netOutput = c.quote.buyAmount
        - c.quote.buyAmount * aggregatorFeeBps c.quote.aggregator / 10000 := by
    intro c hc
    rw [hall, rankQuotes, List.mem_mergeSort, quotesWithNet] at hc
    obtain ⟨q, _, rfl⟩ := List.mem_map.mp hc
    rfl
  refine ⟨hmem, hmem r.best ?_⟩
  rw [hhead]
  exact List.mem_cons_self _ _

/-- Witness for the amended C3 at the scenario input: the surviving 0x
quote of gross 1000 satisfies the exact formula, with netOutput 999. -/
theorem bestQuote_netOutput_exact_witness :
    (∀ c ∈ [RankedQuote.mk ⟨.zeroX, 1000⟩ 999],
        c.netOutput = c.quote.buyAmount
          - c.quote.buyAmount * aggregatorFeeBps c.quote.aggregator / 10000) ∧
    (RankedQuote.mk ⟨.zeroX, 1000⟩ 999).netOutput
      = (RankedQuote.mk ⟨.zeroX, 1000⟩ 999).quote.buyAmount
        - (RankedQuote.mk ⟨.zeroX, 1000⟩ 999).quote.buyAmount
          * aggregatorFeeBps (RankedQuote.mk ⟨.zeroX, 1000⟩ 999).quote.aggregator / 10000 :=
  bestQuote_netOutput_exact (some ⟨.zeroX, 1000⟩) none none none
    ⟨⟨⟨.zeroX, 1000⟩, 999⟩, [⟨⟨.zeroX, 1000⟩, 999⟩]⟩ getBestQuote_scenario_eval

end Aggregators

/-! ## Theorems: the consolidation job state machine -/

namespace Consolidator

/-- Claim C1 (amended): a settlement call by an authorized sender on an
existing job in status `Receiving` or `Swapping`, whose total amount
(`swappedAmount` if positive, else `receivedAmount`) is at least the
minimum floor and strictly exceeds `gasCostUSD + serviceFee` with
`serviceFee = totalAmount * serviceFeePercent / 10000` in truncating
integer arithmetic, sets `netAmount = totalAmount - (gasCostUSD +
serviceFee)`, transfers `netAmount` to the user and `serviceFee` to the
owner, and moves the job to `Complete`. -/
theorem settleJob_success (s : ConsState) (sender : Addr) (jobId : JobId)
    (gasCostUSD now : Nat)
    (hauth : ¬ notBackend s sender)
    (hjob : (s.jobs jobId).user ≠ 0)
    (hstatus : (s.jobs jobId).status = .Receiving ∨ (s.jobs jobId).status = .Swapping)
    (hfloor : MIN_CONSOLIDATION_USD ≤ totalAmountOf (s.jobs jobId))
    (hfees : gasCostUSD
        + totalAmountOf (s.jobs jobId) * s.serviceFeePercent / FEE_DENOMINATOR
        < totalAmountOf (s.jobs jobId)) :
    (settleJob s sender jobId gasCostUSD now).toOption.map
        (fun s' => ((s'.jobs jobId).status, (s'.jobs jobId).netAmount,
                    (s'.jobs jobId).serviceFee, s'.transfers))
      = some (JobStatus.Complete,
          totalAmountOf (s.jobs jobId)
            - (gasCostUSD + totalAmountOf (s.jobs jobId) * s.serviceFeePercent / FEE_DENOMINATOR),
          totalAmountOf (s.jobs jobId) * s.serviceFeePercent / FEE_DENOMINATOR,
          s.transfers
            ++ [⟨(s.jobs jobId).targetAsset, (s.jobs jobId).user,
                 totalAmountOf (s.jobs jobId)
                   - (gasCostUSD
                      + totalAmountOf (s.jobs jobId) * s.serviceFeePercent / FEE_DENOMINATOR)⟩]
            ++ (if 0 < totalAmountOf (s.jobs jobId) * s.serviceFeePercent / FEE_DENOMINATOR
                then [⟨(s.jobs jobId).targetAsset, s.owner,
                       totalAmountOf (s.jobs jobId) * s.serviceFeePercent / FEE_DENOMINATOR⟩]
                else [])) := by
  have h1 : ¬ ((s.jobs jobId).status ≠ .Swapping ∧ (s.jobs jobId).status ≠ .Receiving) := by
    rcases hstatus with h | h <;> simp [h]
  have h2 : ¬ (totalAmountOf (s.jobs jobId) < MIN_CONSOLIDATION_USD) := not_lt.mpr hfloor
  have h3 : ¬ (totalAmountOf (s.jobs jobId)
      ≤ gasCostUSD + totalAmountOf (s.jobs jobId) * s.serviceFeePercent / FEE_DENOMINATOR) :=
    not_le.mpr hfees
  simp only [settleJob, if_neg hauth, if_neg hjob, if_neg h1, if_neg h2, if_neg h3]
  simp [setJob, pushTransfer, logEvent, apply_ite]
  split
  · rename_i hfee
    exact ⟨_, rfl, by simp, by simp, by simp, by simp [hfee]⟩
  · rename_i hfee
    exact ⟨_, rfl, by simp, by simp, by simp, by simp [hfee]⟩

/-- Witness for C1 at the spec scenario scaled to the 6-decimal contract
units: receivedAmount 105000000, no swap, feeBps 120, gasCostUSD
2000000: serviceFee 1260000 and netAmount 101740000, both transferred,
job Complete. -/
theorem settleJob_success_witness :
    MIN_CONSOLIDATION_USD ≤ 105000000 ∧
    (settleJob (demoState 105000000 0 .Receiving 120) 7 1 2000000 0).toOption.map
        (fun s' => ((s'.jobs 1).status, (s'.jobs 1).netAmount,
                    (s'.jobs 1).serviceFee, s'.transfers))
      = some (JobStatus.Complete, 101740000, 1260000,
              [⟨11, 5, 101740000⟩, ⟨11, 9, 1260000⟩]) := by
  have h := settleJob_success (demoState 105000000 0 .Receiving 120) 7 1 2000000 0
    (by decide) (by decide) (Or.inl (by decide)) (by decide) (by decide)
  exact ⟨by decide, h.trans (by decide)⟩

/-- Claim C1, counterexample to the literal scenario: with
receivedAmount 105 (two deliveries of 60 and 45), no swap, feeBps 120
and gasCostUSD 2, the settlement does not complete with netAmount 102:
105 is below `MIN_CONSOLIDATION_USD = 1e6`, so the job moves to `Failed`
and nothing is transferred. -/
theorem settleJob_scenario_105_fails :
    (settleJob (demoState 105 0 .Receiving 120) 7 1 2 0).toOption.map
        (fun s' => ((s'.jobs 1).status, s'.transfers, s'.events))
      = some (JobStatus.Failed, [], [.JobFailed 1 "Amount below minimum"]) ∧
    JobStatus.Failed ≠ JobStatus.Complete := by
  exact ⟨by decide, by decide⟩

/-- Claim C8: a settlement call by an authorized sender on an existing
job in status `Receiving` or `Swapping` whose total amount is strictly
below the minimum consolidation floor moves the job to `Failed` with the
reason string "Amount below minimum", and performs no transfer of any
kind. -/
theorem settleJob_below_minimum (s : ConsState) (sender : Addr) (jobId : JobId)
    (gasCostUSD now : Nat)
    (hauth : ¬ notBackend s sender)
    (hjob : (s.jobs jobId).user ≠ 0)
    (hstatus : (s.jobs jobId).status = .Receiving ∨ (s.jobs jobId).status = .Swapping)
    (hbelow : totalAmountOf (s.jobs jobId) < MIN_CONSOLIDATION_USD) :
    (settleJob s sender jobId gasCostUSD now).toOption.map
        (fun s' => ((s'.jobs jobId).status, s'.transfers, s'.events))
      = some (JobStatus.Failed, s.transfers,
              Event.JobFailed jobId "Amount below minimum" :: s.events) := by
  have h1 : ¬ ((s.jobs jobId).status ≠ .Swapping ∧ (s.jobs jobId).status ≠ .Receiving) := by
    rcases hstatus with h | h <;> simp [h]
  simp only [settleJob, if_neg hauth, if_neg hjob, if_neg h1, if_pos hbelow]
  simp [failJob, setJob, logEvent]
  exact ⟨_, rfl, by simp, rfl, rfl⟩

/-- Witness for C8: a job holding 105 (below the 1e6 floor) fails with
the "Amount below minimum" reason and an unchanged (empty) transfer
log. -/
theorem settleJob_below_minimum_witness :
    totalAmountOf ((demoState 105 0 .Receiving 120).jobs 1) < MIN_CONSOLIDATION_USD ∧
    (settleJob (demoState 105 0 .Receiving 120) 7 1 2 0).toOption.map
        (fun s' => ((s'.jobs 1).status, s'.transfers, s'.events))
      = some (JobStatus.Failed, (demoState 105 0 .Receiving 120).transfers,
              Event.JobFailed 1 "Amount below minimum"
                :: (demoState 105 0 .Receiving 120).events) :=
  ⟨by decide,
   settleJob_below_minimum (demoState 105 0 .Receiving 120) 7 1 2 0
     (by decide) (by decide) (Or.inl (by decide)) (by decide)⟩

/-- Claim C5: a settlement call on a job already in a terminal status
(`Complete`, `Failed` or `Refunded`) reverts with `InvalidJobStatus`,
and the transaction leaves the state (every job field, the transfer
log, the totals) unchanged: no transfer is performed on the second
call. -/
theorem settleJob_terminal_rejected (s : ConsState) (sender : Addr) (jobId : JobId)
    (gasCostUSD now : Nat)
    (hauth : ¬ notBackend s sender)
    (hjob : (s.jobs jobId).user ≠ 0)
    (hterm : (s.jobs jobId).status = .Complete ∨ (s.jobs jobId).status = .Failed ∨
             (s.jobs jobId).status = .Refunded) :
    settleJob s sender jobId gasCostUSD now = .error .InvalidJobStatus ∧
    step s (.settle sender jobId gasCostUSD now) = s := by
  have h1 : (s.jobs jobId).status ≠ .Swapping ∧ (s.jobs jobId).status ≠ .Receiving := by
    rcases hterm with h | h | h <;> simp [h]
  have herr : settleJob s sender jobId gasCostUSD now = .error .InvalidJobStatus := by
    simp only [settleJob, if_neg hauth, if_neg hjob, if_pos h1]
  exact ⟨herr, by simp [step, herr]⟩

/-- Witness for C5: settling a job that is already `Complete` reverts
and changes nothing. -/
theorem settleJob_terminal_rejected_witness :
    settleJob (demoState 105000000 0 .Complete 100) 7 1 2 0 = .error .InvalidJobStatus ∧
    step (demoState 105000000 0 .Complete 100) (.settle 7 1 2 0)
      = demoState 105000000 0 .Complete 100 :=
  settleJob_terminal_rejected (demoState 105000000 0 .Complete 100) 7 1 2 0
    (by decide) (by decide) (Or.inl (by decide))

/-- Claim C6: an `executeSwap` call whose measured output
(`balanceAfter - balanceBefore`) is strictly below the caller-supplied
minimum is rejected (with `SlippageExceeded` when the router call
succeeded, `SwapFailed` otherwise), and the attempt is rolled back
atomically: the transaction leaves the state unchanged, so the job
keeps its prior status and `swappedAmount`. -/
theorem executeSwap_slippage_rejected (s : ConsState) (sender : Addr) (jobId : JobId)
    (fromToken : Addr) (amount minAmountOut : Nat)
    (routerCallSuccess : Bool) (amountOut : Nat)
    (hlt : amountOut < minAmountOut) :
    (executeSwap s sender jobId fromToken amount minAmountOut
        routerCallSuccess amountOut).toOption = none ∧
    step s (.swap sender jobId fromToken amount minAmountOut
        routerCallSuccess amountOut) = s := by
  by_cases hA : notBackend s sender
  · simp [executeSwap, step, hA, Except.toOption]
  · by_cases hU : (s.jobs jobId).user = 0
    · simp [executeSwap, step, hA, hU, Except.toOption]
    · by_cases hS : (s.jobs jobId).status ≠ .Receiving ∧ (s.jobs jobId).status ≠ .Swapping
      · simp [executeSwap, step, hA, hU, hS, Except.toOption]
      · cases routerCallSuccess with
        | false => simp [executeSwap, step, hA, hU, hS, Except.toOption]
        | true => simp [executeSwap, step, hA, hU, hS, hlt, Except.toOption]

/-- Witness for C6: a swap attempt with `minOutputAmount` 950 whose
measured output is 940 is rejected and the job stays `Receiving` with
everything else unchanged. -/
theorem executeSwap_slippage_rejected_witness :
    (940 : Nat) < 950 ∧
    ((executeSwap (demoState 105000000 0 .Receiving 100) 7 1 13 1000 950 true 940).toOption
        = none ∧
     step (demoState 105000000 0 .Receiving 100) (.swap 7 1 13 1000 950 true 940)
        = demoState 105000000 0 .Receiving 100) :=
  ⟨by decide,
   executeSwap_slippage_rejected (demoState 105000000 0 .Receiving 100) 7 1 13 1000 950
     true 940 (by decide)⟩

/-- Claim C9: refund is valid only from `Failed`.  On a `Failed` job
with nonzero residual the full residual (swappedAmount if positive,
else receivedAmount) is transferred to the user with no deduction and
the job becomes `Refunded`; a further refund of the resulting state
reverts, so the transition happens exactly once.  On a job in any other
status the call reverts with `InvalidJobStatus` and the transaction
changes nothing. -/
theorem refundJob_not_failed (s : ConsState) (sender : Addr) (jobId : JobId)
    (hauth : ¬ notBackend s sender)
    (hjob : (s.jobs jobId).user ≠ 0)
    (hNF : (s.jobs jobId).status ≠ .Failed) :
    refundJob s sender jobId = .error .InvalidJobStatus := by
  simp only [refundJob, if_neg hauth, if_neg hjob, if_pos hNF]

theorem refundJob_spec (s : ConsState) (sender : Addr) (jobId : JobId)
    (hauth : ¬ notBackend s sender)
    (hjob : (s.jobs jobId).user ≠ 0) :
    ((s.jobs jobId).status = .Failed → 0 < totalAmountOf (s.jobs jobId) →
      (refundJob s sender jobId).toOption.map
          (fun s' => ((s'.jobs jobId).status, s'.transfers))
        = some (JobStatus.Refunded,
                s.transfers ++ [⟨(s.jobs jobId).targetAsset, (s.jobs jobId).user,
                                 totalAmountOf (s.jobs jobId)⟩]) ∧
      refundJob (step s (.refund sender jobId)) sender jobId
        = .error .InvalidJobStatus) ∧
    ((s.jobs jobId).status ≠ .Failed →
      refundJob s sender jobId = .error .InvalidJobStatus ∧
      step s (.refund sender jobId) = s) := by
  constructor
  · intro hF hA
    have h1 : ¬ (s.jobs jobId).status ≠ .Failed := not_not.mpr hF
    simp only [refundJob, if_neg hauth, if_neg hjob, if_neg h1, if_pos hA, step]
    refine ⟨?_, ?_⟩
    · simp [setJob, pushTransfer, logEvent]
      exact ⟨_, rfl, by simp, by simp⟩
    · apply refundJob_not_failed
      · exact hauth
      · simpa [logEvent, pushTransfer, setJob] using hjob
      · simp [logEvent, pushTransfer, setJob]
  · intro hNF
    have herr := refundJob_not_failed s sender jobId hauth hjob hNF
    exact ⟨herr, by simp [step, herr]⟩

/-- Witness for C9: a `Failed` job holding 105 receives the full 105
back (no fee) and becomes `Refunded`; a second refund reverts.  A
`Receiving` job cannot be refunded. -/
theorem refundJob_spec_witness :
    (((demoState 105 0 .Failed 100).jobs 1).status = .Failed ∧
      (refundJob (demoState 105 0 .Failed 100) 7 1).toOption.map
          (fun s' => ((s'.jobs 1).status, s'.transfers))
        = some (JobStatus.Refunded, [⟨11, 5, 105⟩]) ∧
      refundJob (step (demoState 105 0 .Failed 100) (.refund 7 1)) 7 1
        = .error .InvalidJobStatus) ∧
    (refundJob (demoState 105 0 .Receiving 100) 7 1 = .error .InvalidJobStatus ∧
      step (demoState 105 0 .Receiving 100) (.refund 7 1) = demoState 105 0 .Receiving 100) := by
  have h1 := (refundJob_spec (demoState 105 0 .Failed 100) 7 1 (by decide) (by decide)).1
    (by decide) (by decide)
  have h2 := (refundJob_spec (demoState 105 0 .Receiving 100) 7 1 (by decide) (by decide)).2
    (by decide)
  exact ⟨⟨by decide, h1.1.trans (by decide), h1.2⟩, h2⟩

/-- Claim C10: a verified inbound cross-chain delivery on an existing
job is accepted whatever the current status, including the terminal
ones: `receivedAmount` grows by the delivered amount, and the status
changes only when it was `Created` (to `Receiving`), otherwise staying
exactly as it was. -/
theorem ccipReceive_any_status (s : ConsState) (sourceChain : Nat) (msgSender : Addr)
    (jobId : JobId) (token : Addr) (amount : Nat)
    (hp : s.paused = false)
    (hchain : s.supportedSourceChains sourceChain = true)
    (hsender : msgSender = s.trustedSenders sourceChain)
    (hjob : (s.jobs jobId).user ≠ 0) :
    (ccipReceive s sourceChain msgSender jobId token amount).toOption.map
        (fun s' => ((s'.jobs jobId).receivedAmount, (s'.jobs jobId).status))
      = some ((s.jobs jobId).receivedAmount + amount,
              if (s.jobs jobId).status = .Created then .Receiving
              else (s.jobs jobId).status) := by
  have hs : ¬ msgSender ≠ s.trustedSenders sourceChain := not_not.mpr hsender
  simp only [ccipReceive, hp, hchain, if_neg hjob, if_neg hs]
  simp [setJob, logEvent]
  exact ⟨_, rfl, by simp, by simp⟩

/-- Witness for C10: a delivery of 5 to a job that is already
`Complete` is accepted, bringing `receivedAmount` from 40 to 45 and
leaving the status `Complete`. -/
theorem ccipReceive_any_status_witness :
    ((demoState 40 0 .Complete 100).jobs 1).status = .Complete ∧
    (ccipReceive (demoState 40 0 .Complete 100) 10 77 1 13 5).toOption.map
        (fun s' => ((s'.jobs 1).receivedAmount, (s'.jobs 1).status))
      = some (45, JobStatus.Complete) :=
  ⟨by decide,
   (ccipReceive_any_status (demoState 40 0 .Complete 100) 10 77 1 13 5
     (by decide) (by decide) (by decide) (by decide)).trans (by decide)⟩

theorem jobIdOf_inj {u t n u' t' n' : Nat} (h : jobIdOf u t n = jobIdOf u' t' n') :
    u = u' ∧ t = t' ∧ n = n' := by
  unfold jobIdOf at h
  have h1 := Nat.pair_eq_pair.mp h
  have h2 := Nat.pair_eq_pair.mp h1.2
  exact ⟨h1.1, h2.1, h2.2⟩

/-- Facts about any successful `createJob` call: the user is nonzero,
the id is derived from (user, timestamp, job count), only the fresh
slot is written (to a `Created` job owned by the user), and only the
user's job list grows, by one. -/
theorem createJob_ok (s : ConsState) (sender u ta : Addr) (ea : Nat)
    (scs : List Nat) (now : Nat) (s1 : ConsState) (jid : JobId)
    (h : createJob s sender u ta ea scs now = .ok (s1, jid)) :
    u ≠ 0 ∧
    jid = jobIdOf u now (s.userJobs u).length ∧
    (∀ j, j ≠ jid → s1.jobs j = s.jobs j) ∧
    (s1.jobs jid).user = u ∧
    (s1.jobs jid).status = .Created ∧
    (∀ v, (s.userJobs v).length ≤ (s1.userJobs v).length) ∧
    (s1.userJobs u).length = (s.userJobs u).length + 1 := by
  simp only [createJob] at h
  split at h
  · exact Except.noConfusion h
  split at h
  · exact Except.noConfusion h
  split at h
  · exact Except.noConfusion h
  split at h
  · exact Except.noConfusion h
  split at h
  · exact Except.noConfusion h
  rename_i hu0 hea
  injection h with h
  injection h with hS hJ
  subst hS
  subst hJ
  refine ⟨hu0, rfl, ?_, ?_, ?_, ?_, ?_⟩
  · intro j hj
    simp [logEvent, setJob, hj]
  · simp [logEvent, setJob]
  · simp [logEvent, setJob]
  · intro v
    by_cases hv : v = u <;> simp [logEvent, setJob, hv]
  · simp [logEvent, setJob]

/-- Facts about any successful `_ccipReceive` call: the job exists,
only its slot changes, its user is kept, its status advances from
`Created` to `Receiving` and is otherwise kept, and no job list
changes. -/
theorem ccipReceive_ok (s : ConsState) (sc : Nat) (ms : Addr) (jobId : JobId)
    (tk : Addr) (amt : Nat) (s1 : ConsState)
    (h : ccipReceive s sc ms jobId tk amt = .ok s1) :
    (s.jobs jobId).user ≠ 0 ∧
    (∀ j, j ≠ jobId → s1.jobs j = s.jobs j) ∧
    (s1.jobs jobId).user = (s.jobs jobId).user ∧
    (s1.jobs jobId).status
      = (if (s.jobs jobId).status = .Created then .Receiving else (s.jobs jobId).status) ∧
    (∀ v, s1.userJobs v = s.userJobs v) := by
  simp only [ccipReceive] at h
  split at h
  · exact Except.noConfusion h
  split at h
  · exact Except.noConfusion h
  split at h
  · exact Except.noConfusion h
  split at h
  · exact Except.noConfusion h
  rename_i hu0
  injection h with h
  subst h
  refine ⟨hu0, ?_, ?_, ?_, ?_⟩
  · intro j hj
    simp [logEvent, setJob, hj]
  · simp [logEvent, setJob]
  · simp [logEvent, setJob]
  · intro v
    simp [logEvent, setJob]

/-- Facts about any successful `executeSwap` call: the job exists and
was in `Receiving` or `Swapping`, only its slot changes, its user is
kept, its status becomes `Swapping`, and no job list changes. -/
theorem executeSwap_ok (s : ConsState) (sender : Addr) (jobId : JobId)
    (ft : Addr) (amt minOut : Nat) (rs : Bool) (out : Nat) (s1 : ConsState)
    (h : executeSwap s sender jobId ft amt minOut rs out = .ok s1) :
    (s.jobs jobId).user ≠ 0 ∧
    ((s.jobs jobId).status = .Receiving ∨ (s.jobs jobId).status = .Swapping) ∧
    (∀ j, j ≠ jobId → s1.jobs j = s.jobs j) ∧
    (s1.jobs jobId).user = (s.jobs jobId).user ∧
    (s1.jobs jobId).status = .Swapping ∧
    (∀ v, s1.userJobs v = s.userJobs v) := by
  simp only [executeSwap] at h
  split at h
  · exact Except.noConfusion h
  split at h
  · exact Except.noConfusion h
  rename_i hu0
  split at h
  · exact Except.noConfusion h
  rename_i hst
  split at h
  · exact Except.noConfusion h
  split at h
  · exact Except.noConfusion h
  injection h with h
  subst h
  refine ⟨hu0, ?_, ?_, ?_, ?_, ?_⟩
  · rcases not_and_or.mp hst with h' | h'
    · exact Or.inl (not_not.mp h')
    · exact Or.inr (not_not.mp h')
  · intro j hj
    simp [logEvent, setJob, hj]
  · simp [logEvent, setJob]
  · simp [logEvent, setJob]
  · intro v
    simp [logEvent, setJob]

/-- Facts about any successful `settleJob` call: the job exists and was
in `Receiving` or `Swapping`, only its slot changes, its user is kept,
its status ends in `Failed` or `Complete`, and no job list changes. -/
theorem settleJob_ok (s : ConsState) (sender : Addr) (jobId : JobId)
    (gas now : Nat) (s1 : ConsState)
    (h : settleJob s sender jobId gas now = .ok s1) :
    (s.jobs jobId).user ≠ 0 ∧
    ((s.jobs jobId).status = .Receiving ∨ (s.jobs jobId).status = .Swapping) ∧
    (∀ j, j ≠ jobId → s1.jobs j = s.jobs j) ∧
    (s1.jobs jobId).user = (s.jobs jobId).user ∧
    ((s1.jobs jobId).status = .Failed ∨ (s1.jobs jobId).status = .Complete) ∧
    (∀ v, s1.userJobs v = s.userJobs v) := by
  simp only [settleJob] at h
  split at h
  · exact Except.noConfusion h
  split at h
  · exact Except.noConfusion h
  rename_i hu0
  split at h
  · exact Except.noConfusion h
  rename_i hst
  have hstat : (s.jobs jobId).status = .Receiving ∨ (s.jobs jobId).status = .Swapping := by
    rcases not_and_or.mp hst with h' | h'
    · exact Or.inr (not_not.mp h')
    · exact Or.inl (not_not.mp h')
  split at h
  · injection h with h
    subst h
    refine ⟨hu0, hstat, ?_, ?_, Or.inl ?_, ?_⟩
    · intro j hj
      simp [failJob, logEvent, setJob, hj]
    · simp [failJob, logEvent, setJob]
    · simp [failJob, logEvent, setJob]
    · intro v
      simp [failJob, logEvent, setJob]
  split at h
  · injection h with h
    subst h
    refine ⟨hu0, hstat, ?_, ?_, Or.inl ?_, ?_⟩
    · intro j hj
      simp [failJob, logEvent, setJob, hj]
    · simp [failJob, logEvent, setJob]
    · simp [failJob, logEvent, setJob]
    · intro v
      simp [failJob, logEvent, setJob]
  · injection h with h
    subst h
    refine ⟨hu0, hstat, ?_, ?_, Or.inr ?_, ?_⟩
    · intro j hj
      simp [logEvent, pushTransfer, setJob, apply_ite, hj]
    · simp [logEvent, pushTransfer, setJob, apply_ite]
    · simp [logEvent, pushTransfer, setJob, apply_ite]
    · intro v
      simp [logEvent, pushTransfer, setJob, apply_ite]

/-- Facts about any successful `refundJob` call: the job exists and was
`Failed`, only its slot changes, its user is kept, its status ends in
`Failed` (zero residual, untouched) or `Refunded`, and no job list
changes. -/
theorem refundJob_ok (s : ConsState) (sender : Addr) (jobId : JobId) (s1 : ConsState)
    (h : refundJob s sender jobId = .ok s1) :
    (s.jobs jobId).user ≠ 0 ∧
    (s.jobs jobId).status = .Failed ∧
    (∀ j, j ≠ jobId → s1.jobs j = s.jobs j) ∧
    (s1.jobs jobId).user = (s.jobs jobId).user ∧
    ((s1.jobs jobId).status = .Failed ∨ (s1.jobs jobId).status = .Refunded) ∧
    (∀ v, s1.userJobs v = s.userJobs v) := by
  simp only [refundJob] at h
  split at h
  · exact Except.noConfusion h
  split at h
  · exact Except.noConfusion h
  rename_i hu0
  split at h
  · exact Except.noConfusion h
  rename_i hst
  have hF : (s.jobs jobId).status = .Failed := not_not.mp hst
  split at h
  · injection h with h
    subst h
    refine ⟨hu0, hF, ?_, ?_, Or.inr ?_, ?_⟩
    · intro j hj
      simp [logEvent, pushTransfer, setJob, hj]
    · simp [logEvent, pushTransfer, setJob]
    · simp [logEvent, pushTransfer, setJob]
    · intro v
      simp [logEvent, pushTransfer, setJob]
  · injection h with h
    subst h
    exact ⟨hu0, hF, fun j _ => rfl, rfl, Or.inl hF, fun v => rfl⟩

/-- The invariant survives a transaction that rewrites a single
existing job slot without changing its owner or any job list. -/
theorem inv_of_touch (s s1 : ConsState) (jobId : JobId) (hInv : Inv s)
    (hu : (s.jobs jobId).user ≠ 0)
    (hother : ∀ j, j ≠ jobId → s1.jobs j = s.jobs j)
    (huser : (s1.jobs jobId).user = (s.jobs jobId).user)
    (huj : ∀ v, s1.userJobs v = s.userJobs v) : Inv s1 := by
  constructor
  · intro u t n hne
    have hne' : (s.jobs (jobIdOf u t n)).user ≠ 0 := by
      by_cases hp : jobIdOf u t n = jobId
      · rw [hp] at hne ⊢
        rwa [huser] at hne
      · rwa [hother _ hp] at hne
    have := hInv.fresh u t n hne'
    rwa [huj]
  · intro p hp0
    by_cases hp : p = jobId
    · subst hp
      rw [huser] at hp0
      exact absurd hp0 hu
    · rw [hother p hp] at hp0 ⊢
      exact hInv.zeroEmpty p hp0

/-- Rank monotonicity at every slot follows from rank monotonicity at
the single touched slot. -/
theorem mono_of_touch (s s1 : ConsState) (jobId : JobId)
    (hother : ∀ j, j ≠ jobId → s1.jobs j = s.jobs j)
    (hrank : statusRank ((s.jobs jobId).status) ≤ statusRank ((s1.jobs jobId).status))
    (id : JobId) :
    statusRank ((s.jobs id).status) ≤ statusRank ((s1.jobs id).status) := by
  by_cases hid : id = jobId
  · subst hid
    exact hrank
  · rw [hother id hid]

/-- Every transaction preserves the reachability invariant and never
decreases any job's status rank. -/
theorem step_preserves (s : ConsState) (hInv : Inv s) (op : Op) :
    Inv (step s op) ∧
    ∀ id, statusRank ((s.jobs id).status) ≤ statusRank (((step s op).jobs id).status) := by
  cases op with
  | create sender u ta ea scs now =>
    simp only [step]
    cases h : createJob s sender u ta ea scs now with
    | error e => exact ⟨hInv, fun id => le_refl _⟩
    | ok p =>
      obtain ⟨s1, jid⟩ := p
      show Inv s1 ∧ ∀ id, statusRank ((s.jobs id).status) ≤ statusRank ((s1.jobs id).status)
      obtain ⟨hu0, hjid, hother, huser, hstat, hlen_le, hlen⟩ :=
        createJob_ok s sender u ta ea scs now s1 jid h
      have hempty : (s.jobs jid).user = 0 := by
        by_contra hne
        rw [hjid] at hne
        have := hInv.fresh u now _ hne
        omega
      constructor
      · constructor
        · intro u' t' n' hne
          by_cases hp : jobIdOf u' t' n' = jid
          · rw [hjid] at hp
            obtain ⟨h1, h2, h3⟩ := jobIdOf_inj hp
            subst h1
            subst h3
            omega
          · rw [hother _ hp] at hne
            exact lt_of_lt_of_le (hInv.fresh u' t' n' hne) (hlen_le u')
        · intro p hp0
          by_cases hp : p = jid
          · subst hp
            rw [huser] at hp0
            exact absurd hp0 hu0
          · rw [hother p hp] at hp0 ⊢
            exact hInv.zeroEmpty p hp0
      · intro id
        by_cases hid : id = jid
        · subst hid
          rw [hInv.zeroEmpty _ hempty, hstat]
        · rw [hother id hid]
  | ccip sc ms jobId tk amt =>
    simp only [step]
    cases h : ccipReceive s sc ms jobId tk amt with
    | error e => exact ⟨hInv, fun id => le_refl _⟩
    | ok s1 =>
      obtain ⟨hu0, hother, huser, hstat, huj⟩ := ccipReceive_ok s sc ms jobId tk amt s1 h
      refine ⟨inv_of_touch s s1 jobId hInv hu0 hother huser huj,
              mono_of_touch s s1 jobId hother ?_⟩
      rw [hstat]
      by_cases hc : (s.jobs jobId).status = .Created
      · rw [if_pos hc, hc]
        decide
      · rw [if_neg hc]
  | swap sender jobId ft amt minOut rs out =>
    simp only [step]
    cases h : executeSwap s sender jobId ft amt minOut rs out with
    | error e => exact ⟨hInv, fun id => le_refl _⟩
    | ok s1 =>
      obtain ⟨hu0, hstat0, hother, huser, hstat, huj⟩ :=
        executeSwap_ok s sender jobId ft amt minOut rs out s1 h
      refine ⟨inv_of_touch s s1 jobId hInv hu0 hother huser huj,
              mono_of_touch s s1 jobId hother ?_⟩
      rw [hstat]
      rcases hstat0 with h' | h' <;> simp [h', statusRank]
  | settle sender jobId gas now =>
    simp only [step]
    cases h : settleJob s sender jobId gas now with
    | error e => exact ⟨hInv, fun id => le_refl _⟩
    | ok s1 =>
      obtain ⟨hu0, hstat0, hother, huser, hstat, huj⟩ :=
        settleJob_ok s sender jobId gas now s1 h
      refine ⟨inv_of_touch s s1 jobId hInv hu0 hother huser huj,
              mono_of_touch s s1 jobId hother ?_⟩
      rcases hstat0 with h' | h' <;> rcases hstat with h'' | h'' <;>
        rw [h', h''] <;> decide
  | refund sender jobId =>
    simp only [step]
    cases h : refundJob s sender jobId with
    | error e => exact ⟨hInv, fun id => le_refl _⟩
    | ok s1 =>
      obtain ⟨hu0, hstat0, hother, huser, hstat, huj⟩ := refundJob_ok s sender jobId s1 h
      refine ⟨inv_of_touch s s1 jobId hInv hu0 hother huser huj,
              mono_of_touch s s1 jobId hother ?_⟩
      rcases hstat with h'' | h'' <;> simp [hstat0, h'', statusRank]

/-- The invariant holds right after deployment. -/
theorem initialState_inv (o b u w : Addr) : Inv (initialState o b u w) := by
  constructor
  · intro u' t n hne
    exact absurd rfl hne
  · intro jobId _
    rfl

/-- Claim C4: along every sequence of `createJob`, inbound cross-chain
receipt, `executeSwap`, `settleJob` and `refundJob` transactions from
any state satisfying the reachability invariant (it holds at
deployment, `initialState_inv`, and is preserved by every transaction,
`step_preserves`), every job's status only moves forward along the
pipeline `Created → Receiving → Swapping → Settling → {Complete |
Failed} → Refunded`: its rank never decreases, so a status never
regresses to an earlier state (e.g. never from `Settling` back to
`Receiving`). -/
theorem status_never_regresses (s : ConsState) (hInv : Inv s) (ops : List Op)
    (jobId : JobId) :
    statusRank ((s.jobs jobId).status)
      ≤ statusRank (((ops.foldl step s).jobs jobId).status) := by
  induction ops generalizing s with
  | nil => exact le_refl _
  | cons op rest ih =>
    have h := step_preserves s hInv op
    exact le_trans (h.2 jobId) (ih (step s op) h.1)

/-- Witness for C4: from deployment, a trace that creates a job for
user 5 and then delivers to, settles and refunds job 1 never decreases
the rank of the status of job 1. -/
theorem status_never_regresses_witness :
    statusRank (((initialState 9 7 11 12).jobs 1).status)
      ≤ statusRank ((([Op.create 7 5 11 100 [10] 0, Op.ccip 10 77 1 11 40,
            Op.settle 7 1 2 0, Op.refund 7 1].foldl step (initialState 9 7 11 12)).jobs 1).status) :=
  status_never_regresses (initialState 9 7 11 12) (initialState_inv 9 7 11 12)
    [Op.create 7 5 11 100 [10] 0, Op.ccip 10 77 1 11 40, Op.settle 7 1 2 0, Op.refund 7 1] 1

end Consolidator

/-! ## Theorems: the gas-sponsorship ledger -/

namespace Paymaster

open Consolidator (Addr JobId)

/-- Claim C7: for an existing, unrecovered gas record,
`markGasRecovered` succeeds exactly once: the first (authorized) call
flips `recovered` to true and adds the record cost to
`totalGasRecovered`; a second call on the resulting state by any
authorized caller reverts with `AlreadyRecovered`, leaving the record
and the accumulator unchanged. -/
theorem markGasRecovered_once (s : PmState) (sender sender2 : Addr) (jobId : JobId)
    (hauth : ¬ pmUnauthorized s sender)
    (hauth2 : ¬ pmUnauthorized s sender2)
    (hexists : (s.gasRecords jobId).user ≠ 0)
    (hnotrec : (s.gasRecords jobId).recovered = false) :
    (markGasRecovered s sender jobId).toOption.map
        (fun s' => ((s'.gasRecords jobId).recovered, s'.totalGasRecovered,
                    markGasRecovered s' sender2 jobId))
      = some (true, s.totalGasRecovered + (s.gasRecords jobId).gasCostUSD,
              Except.error PmErr.AlreadyRecovered) := by
  simp only [markGasRecovered, if_neg hauth, if_neg hexists, hnotrec]
  simp only [Bool.false_eq_true, if_false, Except.toOption, Option.map]
  have hauth2' : ¬ pmUnauthorized
      { s with gasRecords := fun j => if j = jobId then
                  { s.gasRecords jobId with recovered := true } else s.gasRecords j,
               totalGasRecovered := s.totalGasRecovered + (s.gasRecords jobId).gasCostUSD }
      sender2 := hauth2
  simp [markGasRecovered, if_neg hauth2', hexists]

/-- Witness for C7: the record for job 1 (cost 42) is recovered once,
`totalGasRecovered` grows from 0 to 42, and the second call reverts
with `AlreadyRecovered`. -/
theorem markGasRecovered_once_witness :
    (demoPmState.gasRecords 1).recovered = false ∧
    (markGasRecovered demoPmState 3 1).toOption.map
        (fun s' => ((s'.gasRecords 1).recovered, s'.totalGasRecovered,
                    markGasRecovered s' 3 1))
      = some (true, 42, Except.error PmErr.AlreadyRecovered) := by
  have h := markGasRecovered_once demoPmState 3 3 1
    (by decide) (by decide) (by decide) (by decide)
  exact ⟨by decide, h.trans (by norm_num; decide)⟩

end Paymaster

end Dust
